import Mathlib

/-!
Shallow embedding of the tg-utils-bot repository (a Telegram file upload
relay) and proofs about its specification claims.

Source files embedded here:
- src/utils/constants.py            (configuration constants)
- src/utils/FileUploadBot/FileUpload.py
    (FileUploadBot: registry state, extract_filename_from_url,
     get_file_type, check_url_info)
- src/utils/FileUploadBot/utils.py
    (handle_url, download_with_progress, handle_callback cancel branch)

Modelling conventions:
- Python integers are Nat (all sizes and ids in the source are
  non-negative).
- Python exceptions are the PyErr type; fallible steps return Except.
- Network and clock behaviour is an explicit environment (RunEnv,
  ProbeEnv): the HTTP responses, the delivered chunk list, whether the
  2-second progress condition holds at a given iteration, and at which
  chunk-boundary slots an external cancel callback fires.
- urllib.parse.urlparse and unquote are modelled as oracle inputs: the
  parse outcome (path and query, or an exception) and the unquote
  function are parameters, so theorems quantify over every behaviour the
  real functions could have.
-/

/-- Python exception values that the embedded code can raise. -/
inductive PyErr where
  | nameError (n : String)
  | typeError
  | indexError
  | valueError
  | netError
  deriving DecidableEq, Repr

deriving instance DecidableEq for Except

/-- Test whether the first list is a prefix of the second. -/
def isPrefixL : List Char → List Char → Bool
  | [], _ => true
  | _ :: _, [] => false
  | a :: as, b :: bs => a == b && isPrefixL as bs

/-- Python `s.startswith(pat)`. -/
def pyStartsWith (s pat : String) : Bool :=
  isPrefixL pat.data s.data

/-- Splitting engine for Python `str.split(sep)` with a non-empty
separator: scan left to right, cutting at each non-overlapping
occurrence of the separator. The fuel argument (initially the length of
the list, an upper bound on the number of steps since every step
consumes at least one character) makes the recursion structural. -/
def pySplitFuel (sep : List Char) : Nat → List Char → List (List Char)
  | _, [] => [[]]
  | 0, l => [l]
  | fuel + 1, c :: rest =>
    if isPrefixL sep (c :: rest) then
      [] :: pySplitFuel sep fuel (List.drop (sep.length - 1) rest)
    else
      match pySplitFuel sep fuel rest with
      | [] => [[c]]
      | p :: ps => (c :: p) :: ps

/-- Python `s.split(sep)` for a non-empty separator. -/
def pySplit (s sep : String) : List String :=
  (pySplitFuel sep.data s.data.length s.data).map String.mk

/-- Python substring test `pat in s` for a non-empty pattern `pat`:
the split on `pat` has at least two pieces exactly when `pat` occurs in
`s`. -/
def strContains (s pat : String) : Bool :=
  (pySplit s pat).length ≥ 2

/-- Python `s.lower()` (ASCII case folding suffices for the extension
sets of the source). -/
def pyLower (s : String) : String :=
  String.mk (s.data.map Char.toLower)

/-- Python `s.strip()`: remove leading and trailing whitespace. -/
def pyStrip (s : String) : String :=
  String.mk
    (((s.data.dropWhile Char.isWhitespace).reverse.dropWhile
        Char.isWhitespace).reverse)

/-- Python `int(s)` domain used here: a non-empty all-digit string
parses to its decimal value; anything else is treated as raising
ValueError (the content-length values exercised by the claims are plain
digit strings). -/
def pyToNat (s : String) : Option Nat :=
  if s.data ≠ [] ∧ s.data.all Char.isDigit then
    some (s.data.foldl (fun n c => n * 10 + (c.toNat - 48)) 0)
  else none

/-- constants.py line 1: `MAX_FILE_SIZE = 2 * 1024 * 1024 * 1024`. -/
def MAX_FILE_SIZE : Nat := 2 * 1024 * 1024 * 1024

/-- constants.py line 2: `MAX_PHOTO_SIZE = 10 * 1024 * 1024`. -/
def MAX_PHOTO_SIZE : Nat := 10 * 1024 * 1024

/-- constants.py line 6: photo extension set. -/
def PHOTO_TYPES : List String :=
  [".jpg", ".jpeg", ".png", ".gif", ".webp", ".bmp", ".tiff"]

/-- constants.py line 7: video extension set. -/
def VIDEO_TYPES : List String :=
  [".mp4", ".avi", ".mov", ".mkv", ".webm", ".m4v", ".3gp"]

/-- constants.py line 8: audio extension set. -/
def AUDIO_TYPES : List String :=
  [".mp3", ".wav", ".flac", ".ogg", ".aac", ".m4a", ".wma"]

/-- Names bound at module level in src/utils/FileUploadBot/utils.py:
its imports (lines 1 to 22) and its own top-level definitions. Python
resolves a free name inside a function against these module globals (and
builtins); `datetime` is not among them and is not a builtin. -/
def utilsModuleBindings : List String :=
  ["asyncio", "io", "re", "time", "httpx", "ParseMode", "ChatAction",
   "Update", "InlineKeyboardButton", "InlineKeyboardMarkup", "InputFile",
   "ContextTypes", "FileUploadBot", "logger", "MAX_FILE_SIZE",
   "MAX_PHOTO_SIZE", "CANCEL_MESSAGE", "bot_instance", "ping_command",
   "handle_url", "download_with_progress", "help_command",
   "handle_callback"]

/-- Python global-name lookup in the utils.py module: referencing a name
that is not bound raises NameError. -/
def lookupName (n : String) : Except PyErr Unit :=
  if n ∈ utilsModuleBindings then .ok () else .error (.nameError n)

/-- File categories produced by `get_file_type` (FileUpload.py lines
61 to 82). -/
inductive FileType where
  | photo
  | video
  | audio
  | document
  deriving DecidableEq, Repr

/-- Telegram send method chosen in the upload phase (utils.py lines
188 to 215): send_photo, send_video, send_audio or send_document. -/
inductive Transport where
  | photo
  | video
  | audio
  | document
  deriving DecidableEq, Repr

/-- FileUpload.py lines 61 to 82, `get_file_type`: classify by lowercase
extension first, then by content-type top-level token, defaulting to
document. The `if content_type:` truthiness test is the nonemptiness
test on the string. -/
def get_file_type (filename : String) (content_type : String) : FileType :=
  let ext : String :=
    if strContains filename "." then
      "." ++ (pySplit (pyLower filename) ".").getLastD ""
    else ""
  if ext ∈ PHOTO_TYPES then .photo
  else if ext ∈ VIDEO_TYPES then .video
  else if ext ∈ AUDIO_TYPES then .audio
  else if content_type ≠ "" then
    if pyStartsWith content_type "image/" then .photo
    else if pyStartsWith content_type "video/" then .video
    else if pyStartsWith content_type "audio/" then .audio
    else .document
  else .document

/-- Result of urlparse as used by `extract_filename_from_url`: only the
path and query components are read by the source. -/
structure UrlParts where
  path : String
  query : String
  deriving DecidableEq, Repr

/-- FileUpload.py lines 44 to 51: the query-parameter fallback loop.
For the first of filename, file, name occurring as a substring of the
query string, evaluate `query_params.split(param + "=")[1].split("&")[0]`
and unquote it; the index `[1]` raises IndexError when `param + "="`
does not occur (the loop tested only `param in query_params`). If no
parameter matches, the filename is left unchanged. -/
def queryExtract (unq : String → String) (query fn0 : String) :
    Except PyErr String :=
  match ["filename", "file", "name"].find? (fun p => strContains query p) with
  | none => .ok fn0
  | some p =>
    match (pySplit query (p ++ "=")).get? 1 with
    | none => .error .indexError
    | some rest => .ok (unq ((pySplit rest "&").headD ""))

/-- FileUpload.py lines 36 to 57: the body of the try block of
`extract_filename_from_url`. `unq` is the urllib unquote function and
`p` the urlparse result, both passed as oracles; `now` is
`int(time.time())`. -/
def extract_body (unq : String → String) (p : UrlParts) (now : Nat) :
    Except PyErr String :=
  let path := unq p.path
  let fn := (pySplit path "/").getLastD ""
  let step : Except PyErr String :=
    if fn = "" ∨ ¬ strContains fn "." then queryExtract unq p.query fn
    else .ok fn
  match step with
  | .error e => .error e
  | .ok fn2 =>
    .ok (if fn2 = "" ∨ ¬ strContains fn2 "." then "file_" ++ toString now
         else fn2)

/-- FileUpload.py lines 33 to 59, `extract_filename_from_url`: run the
body; any exception (urlparse failure or the IndexError of the query
fallback) is caught and replaced by the synthesized
`file_<unix_timestamp>` name. -/
def extract_filename_from_url (unq : String → String)
    (parse : Except PyErr UrlParts) (now : Nat) : String :=
  match parse.bind (fun p => extract_body unq p now) with
  | .ok fn => fn
  | .error _ => "file_" ++ toString now

/-- One HTTP response as observed by `check_url_info`: status code, the
optional content-length and content-type headers, and the final URL
after redirects. -/
structure HttpResp where
  status : Nat
  contentLength : Option String
  contentType : Option String
  url : String
  deriving DecidableEq, Repr

/-- Network environment of one `check_url_info` call: the outcome of the
HEAD request and of the ranged GET fallback. An `Except.error` value is
a transport exception (connection failure or timeout) raised by httpx. -/
structure ProbeEnv where
  head : Except PyErr HttpResp
  getRange : Except PyErr HttpResp
  deriving Repr

/-- The dictionary `check_url_info` returns on success: size (None when
the content-length header is absent or empty), content type (defaulted
to the empty string) and final URL. -/
structure ProbeInfo where
  size : Option Nat
  content_type : String
  url : String
  deriving DecidableEq, Repr

/-- Python `int(...)` on the content-length header string: a decimal
digit string parses to its value, anything else raises ValueError. -/
def pyInt (s : String) : Except PyErr Nat :=
  match pyToNat s with
  | some n => .ok n
  | none => .error .valueError

/-- FileUpload.py lines 93 to 100: build the info dictionary from a
response. `int(content_length) if content_length else None` treats an
absent or empty header as None and may raise ValueError on a malformed
one; content type defaults to the empty string. -/
def buildInfo (r : HttpResp) : Except PyErr ProbeInfo :=
  match r.contentLength with
  | none => .ok ⟨none, r.contentType.getD "", r.url⟩
  | some cs =>
    if cs = "" then .ok ⟨none, r.contentType.getD "", r.url⟩
    else (pyInt cs).map (fun n => ⟨some n, r.contentType.getD "", r.url⟩)

/-- FileUpload.py lines 88 to 91: the response whose headers are read.
The HEAD response when its status is 200; otherwise the ranged GET
response (regardless of the status of that fallback). A HEAD transport
exception propagates without attempting the fallback. -/
def operativeResp (env : ProbeEnv) : Except PyErr HttpResp :=
  match env.head with
  | .error e => .error e
  | .ok r => if r.status ≠ 200 then env.getRange else .ok r

/-- FileUpload.py lines 84 to 103, `check_url_info`: the try block builds
the info dictionary from the operative response; any exception is caught,
logged, and turned into None. -/
def check_url_info (env : ProbeEnv) : Option ProbeInfo :=
  match (operativeResp env).bind buildInfo with
  | .ok info => some info
  | .error _ => none

/-- Process-wide mutable state of FileUploadBot (FileUpload.py lines
12 to 14): the keys of the `active_downloads` dictionary (its values are
always True) and the `cancel_requests` set, both holding user ids. -/
structure BotState where
  active : List Nat
  cancels : List Nat
  deriving DecidableEq, Repr

/-- Set or dictionary-key insertion: a no-op when already present. -/
def insertSet (x : Nat) (l : List Nat) : List Nat :=
  if x ∈ l then l else x :: l

/-- Set discard or guarded dictionary-key deletion. -/
def removeSet (x : Nat) (l : List Nat) : List Nat :=
  l.filter (fun y => y != x)

/-- Reply of the cancel branch of handle_callback. -/
inductive CbReply where
  | cancelling
  | deniedNotOwner
  deriving DecidableEq, Repr

/-- utils.py lines 296 to 321, the `cancel:` branch of handle_callback.
`fromUser` is `query.from_user.id` and `target` the id parsed from the
callback data (always `cancel:<user_id>` as built at lines 74 and 118).
When the requester is the owner: add to cancel_requests, answer, and
delete the active_downloads entry when present. Otherwise: alert-only
denial. Returns the new state, the reply, and how many dictionary
deletions actually executed. -/
def handle_callback_cancel (fromUser target : Nat) (s : BotState) :
    BotState × CbReply × Nat :=
  if fromUser = target then
    let s1 : BotState := { s with cancels := insertSet target s.cancels }
    if target ∈ s1.active then
      ({ s1 with active := removeSet target s1.active }, .cancelling, 1)
    else (s1, .cancelling, 0)
  else (s, .deniedNotOwner, 0)

/-- An external cancel callback by the session owner firing (or not) at
a suspension point of the download loop: when it fires it is exactly
handle_callback_cancel with requester equal to owner. Accumulates into
the running count `r` of executed active-entry deletions. -/
def fireEvent (fires : Bool) (uid : Nat) (s : BotState) (r : Nat) :
    BotState × Nat :=
  if fires then
    let out := handle_callback_cancel uid uid s
    (out.1, r + out.2.2)
  else (s, r)

/-- Progress snapshot emitted at utils.py lines 144 to 165: the
percentage format used when `total_size > 0`, or the unknown-total
format (bytes downloaded only) of the else branch. Speed and ETA are
wall-clock floating point values and are not modelled. -/
inductive Snapshot where
  | known (downloaded total : Nat)
  | unknown (downloaded : Nat)
  deriving DecidableEq, Repr

/-- Python `downloaded == total_size` (utils.py line 141): an int never
equals None. -/
def pyEqNatOpt (d : Nat) (t : Option Nat) : Bool :=
  match t with
  | none => false
  | some n => d == n

/-- Exit status of the chunk loop at utils.py lines 121 to 171. -/
inductive LoopExit where
  | cancelledL
  | raisedL (e : PyErr)
  | doneL
  deriving DecidableEq, Repr

/-- Result of the chunk loop: exit status, the `downloaded` counter, the
bot state, the count of executed active-entry deletions, and the emitted
progress snapshots. -/
structure LoopRes where
  exit : LoopExit
  downloaded : Nat
  state : BotState
  rel : Nat
  snaps : List Snapshot
  deriving DecidableEq, Repr

/-- Environment of one handle_url run: probe responses, the urlparse
oracle for the final URL, the unquote function, the clock value used for
fallback filenames, the status of the streaming GET, the chunk sizes
the stream delivers, an optional iteration index at which the stream
raises instead of delivering, whether the 2-second progress condition
holds at iteration i, and at which suspension-point slots (2i before the
pre-check of chunk i, 2i+1 between write and post-check, 2n before the
final check) an owner cancel callback fires. -/
structure RunEnv where
  probeEnv : ProbeEnv
  parse : Except PyErr UrlParts
  unquote : String → String
  now : Nat
  status : Nat
  chunks : List Nat
  chunkErr : Option Nat
  emitTime : Nat → Bool
  cancelFires : Nat → Bool

/-- utils.py lines 121 to 171, the `async for chunk` loop. Iteration i:
an owner cancel callback may fire during the pull await (slot 2i); the
pull may raise a transport error; the pre-write cancel check returns
after discarding the flag; the chunk is appended (`downloaded +=
len(chunk)`); a callback may fire (slot 2i+1); the post-write check
returns likewise; then, when the 2-second condition holds or
`downloaded == total_size`, a progress snapshot is built, raising
TypeError at `if total_size > 0:` when total_size is None (editing the
message itself is wrapped in try/except and never aborts). -/
def dlLoop (uid : Nat) (env : RunEnv) (tsz : Option Nat) :
    Nat → List Nat → Nat → BotState → Nat → List Snapshot → LoopRes
  | i, [], d, s0, r0, sn =>
    let fr := fireEvent (env.cancelFires (2 * i)) uid s0 r0
    if env.chunkErr = some i then ⟨.raisedL .netError, d, fr.1, fr.2, sn⟩
    else ⟨.doneL, d, fr.1, fr.2, sn⟩
  | i, c :: rest2, d, s0, r0, sn =>
    let fr := fireEvent (env.cancelFires (2 * i)) uid s0 r0
    if env.chunkErr = some i then ⟨.raisedL .netError, d, fr.1, fr.2, sn⟩
    else if uid ∈ fr.1.cancels then
      ⟨.cancelledL, d, { fr.1 with cancels := removeSet uid fr.1.cancels },
       fr.2, sn⟩
    else
      let d2 := d + c
      let fr2 := fireEvent (env.cancelFires (2 * i + 1)) uid fr.1 fr.2
      if uid ∈ fr2.1.cancels then
        ⟨.cancelledL, d2, { fr2.1 with cancels := removeSet uid fr2.1.cancels },
         fr2.2, sn⟩
      else if env.emitTime i || pyEqNatOpt d2 tsz then
        match tsz with
        | none => ⟨.raisedL .typeError, d2, fr2.1, fr2.2, sn⟩
        | some t =>
          dlLoop uid env (some t) (i + 1) rest2 d2 fr2.1 fr2.2
            (sn ++ [if t > 0 then Snapshot.known d2 t else Snapshot.unknown d2])
      else dlLoop uid env tsz (i + 1) rest2 d2 fr2.1 fr2.2 sn

/-- utils.py line 188 to 215: the transport chosen by the if/elif chain
of the upload phase, from the file type and the actual buffer size. -/
def selectTransport (ftype : FileType) (size : Nat) : Transport :=
  if ftype = .photo ∧ size ≤ MAX_PHOTO_SIZE then .photo
  else if ftype = .video then .video
  else if ftype = .audio then .audio
  else .document

/-- utils.py lines 179 to 215, the upload phase. Line 186 builds the
caption f-string, whose expression `datetime.now()` evaluates the free
name `datetime` first: utils.py never imports it, so the lookup raises
NameError before any send method is reached. -/
def uploadPhase (ftype : FileType) (size : Nat) : Except PyErr Transport :=
  (lookupName "datetime").bind (fun _ => .ok (selectTransport ftype size))

/-- Exit status of download_with_progress. -/
inductive DlExit where
  | httpError
  | cancelledRet
  | raised (e : PyErr)
  | sent (t : Transport)
  deriving DecidableEq, Repr

/-- Result of download_with_progress: exit status, downloaded byte
count, bot state, executed active-entry deletions, snapshots, whether
the upload phase was entered, and the send methods invoked. -/
structure DlResult where
  exit : DlExit
  downloaded : Nat
  state : BotState
  rel : Nat
  snaps : List Snapshot
  enteredUpload : Bool
  uploads : List Transport
  deriving DecidableEq, Repr

/-- utils.py lines 103 to 227, download_with_progress: reject a non-200
stream status; run the chunk loop; a loop exception propagates; on
normal loop end, the final pre-upload cancel check (lines 173 to 177)
returns after discarding the flag; otherwise the upload phase runs
(entering it edits the Uploading message), whose exception propagates
to the caller; on success exactly one send method is invoked. -/
def download_with_progress (uid : Nat) (env : RunEnv) (tsz : Option Nat)
    (ftype : FileType) (s : BotState) : DlResult :=
  if env.status ≠ 200 then ⟨.httpError, 0, s, 0, [], false, []⟩
  else
    let l := dlLoop uid env tsz 0 env.chunks 0 s 0 []
    match l.exit with
    | .raisedL e => ⟨.raised e, l.downloaded, l.state, l.rel, l.snaps, false, []⟩
    | .cancelledL =>
      ⟨.cancelledRet, l.downloaded, l.state, l.rel, l.snaps, false, []⟩
    | .doneL =>
      if uid ∈ l.state.cancels then
        ⟨.cancelledRet, l.downloaded,
         { l.state with cancels := removeSet uid l.state.cancels },
         l.rel, l.snaps, false, []⟩
      else
        match uploadPhase ftype l.downloaded with
        | .error e =>
          ⟨.raised e, l.downloaded, l.state, l.rel, l.snaps, true, []⟩
        | .ok t =>
          ⟨.sent t, l.downloaded, l.state, l.rel, l.snaps, true, [t]⟩

/-- Terminal outcome of one handle_url run, as reported to the user. -/
inductive UrlOutcome where
  | invalidUrl
  | alreadyActive
  | probeFailed
  | sizeRejected
  | httpError
  | cancelled
  | uploadError (e : PyErr)
  | success (t : Transport)
  deriving DecidableEq, Repr

/-- Result of one handle_url run. `rel` counts executed deletions of the
active_downloads entry of the owner, `streamStarted` records whether
download_with_progress was invoked, `admitted` whether the owner was
inserted into active_downloads. -/
structure UrlResult where
  outcome : UrlOutcome
  state : BotState
  downloaded : Nat
  rel : Nat
  snaps : List Snapshot
  enteredUpload : Bool
  uploads : List Transport
  streamStarted : Bool
  admitted : Bool
  deriving DecidableEq, Repr

/-- utils.py line 40: `re.match(r"https?://.+", url)` succeeds exactly
when the text starts with the scheme prefix followed by at least one
character. -/
def urlRegexMatch (s : String) : Bool :=
  (pyStartsWith s "http://" && s.length > 7) ||
  (pyStartsWith s "https://" && s.length > 8)

/-- utils.py line 66: `if info["size"] and info["size"] > MAX_FILE_SIZE`,
with Python truthiness (None and 0 are falsy). -/
def pySizeTooBig (sz : Option Nat) : Bool :=
  match sz with
  | none => false
  | some n => (n != 0) && (n > MAX_FILE_SIZE)

/-- utils.py lines 96 to 101, the finally block of handle_url: delete
the active_downloads entry when present, then discard the owner from
cancel_requests. -/
def applyFinally (uid : Nat) (s : BotState) (r : Nat) : BotState × Nat :=
  let a :=
    if uid ∈ s.active then
      ({ s with active := removeSet uid s.active }, r + 1)
    else (s, r)
  ({ a.1 with cancels := removeSet uid a.1.cancels }, a.2)

/-- utils.py lines 35 to 101, handle_url: strip and regex-validate the
text; reject when the owner already has an active download (no state
change); otherwise insert the owner and run the try block (probe, size
check, streaming, upload), every path of which ends in the finally
block. Exceptions from the download (transport errors, the TypeError of
the progress branch, the NameError of the caption) are caught by the
`except Exception` arm. -/
def handle_url (uid : Nat) (text : String) (env : RunEnv) (s : BotState) :
    UrlResult :=
  let url := pyStrip text
  if ¬ urlRegexMatch url then
    ⟨.invalidUrl, s, 0, 0, [], false, [], false, false⟩
  else if uid ∈ s.active then
    ⟨.alreadyActive, s, 0, 0, [], false, [], false, false⟩
  else
    let s1 : BotState := { s with active := insertSet uid s.active }
    match check_url_info env.probeEnv with
    | none =>
      let fin := applyFinally uid s1 0
      ⟨.probeFailed, fin.1, 0, fin.2, [], false, [], false, true⟩
    | some info =>
      let filename := extract_filename_from_url env.unquote env.parse env.now
      let ftype := get_file_type filename info.content_type
      if pySizeTooBig info.size then
        let fin := applyFinally uid s1 0
        ⟨.sizeRejected, fin.1, 0, fin.2, [], false, [], false, true⟩
      else
        let dl := download_with_progress uid env info.size ftype s1
        let fin := applyFinally uid dl.state dl.rel
        let out : UrlOutcome :=
          match dl.exit with
          | .httpError => .httpError
          | .cancelledRet => .cancelled
          | .raised e => .uploadError e
          | .sent t => .success t
        ⟨out, fin.1, dl.downloaded, fin.2, dl.snaps, dl.enteredUpload,
         dl.uploads, true, true⟩

/-- Chunking engine for pyChunks: fuel (initially N, an upper bound on
the number of chunks since C is at least 1) makes the recursion
structural. -/
def pyChunksFuel (C : Nat) : Nat → Nat → List Nat
  | _, 0 => []
  | 0, n + 1 => [n + 1]
  | fuel + 1, n + 1 =>
    if n + 1 ≤ C then [n + 1] else C :: pyChunksFuel C fuel (n + 1 - C)

/-- Chunking of a body of N bytes into successive pieces of C bytes
each, the last one short: the sizes `aiter_bytes(chunk_size=C)` yields
for a positive chunk size C. -/
def pyChunks (C N : Nat) : List Nat :=
  if C = 0 then [] else pyChunksFuel C N N

/-- Release-accounting invariant threaded through one admitted run: the
owner id is still an active_downloads key and no deletion of it has
executed, or it has been deleted exactly once. -/
def relInvA (uid : Nat) (act : List Nat) (r : Nat) : Prop :=
  (uid ∈ act ∧ r = 0) ∨ (uid ∉ act ∧ r = 1)

/-- Exact condition under which the embedded check_url_info returns
None: a transport exception on the operative request, or a malformed
non-empty content-length header. -/
def probeFailCond (env : ProbeEnv) : Prop :=
  (∃ e, operativeResp env = .error e) ∨
  (∃ r cs, operativeResp env = .ok r ∧ r.contentLength = some cs ∧
    cs ≠ "" ∧ pyToNat cs = none)

/-- Baseline concrete run environment: a probe that succeeds with no
content-length header, an empty stream, no cancel events, and a clock
that never reaches the 2-second progress threshold. -/
def baseEnv : RunEnv :=
  { probeEnv := ⟨.ok ⟨200, none, some "", "http://x/f.bin"⟩,
                 .ok ⟨200, none, some "", "http://x/f.bin"⟩⟩,
    parse := .ok ⟨"/f.bin", ""⟩, unquote := id, now := 0, status := 200,
    chunks := [], chunkErr := none,
    emitTime := fun _ => false, cancelFires := fun _ => false }

/-- Scenario environment of C2: two chunks of 8192 bytes and an owner
cancel callback firing between them (slot 2, before the pre-write check
of the second chunk). -/
def envC2 : RunEnv :=
  { baseEnv with chunks := [8192, 8192], cancelFires := fun t => t == 2 }

/-- Scenario environment of C8: probe without content-length, one
100-byte chunk, and the 2-second progress condition holding at the
first iteration. -/
def envC8 : RunEnv :=
  { baseEnv with chunks := [100], emitTime := fun i => i == 0 }

/-- Scenario environment of C3: probe declaring a 3 GiB size. -/
def env3 : RunEnv :=
  { baseEnv with
    probeEnv := ⟨.ok ⟨200, some "3221225472", some "video/mp4",
                      "http://x/v.mp4"⟩, .error .netError⟩ }

/-- Scenario environment of C4: a 5-byte body chunked at size 2. -/
def env4 : RunEnv := { baseEnv with chunks := pyChunks 2 5 }

/-- Probe environment where the HEAD and the ranged-GET fallback both
answer with status 404 (a served error page with a content-type and no
content-length). -/
def probe404 : ProbeEnv :=
  ⟨.ok ⟨404, none, some "text/html", "http://x/f"⟩,
   .ok ⟨404, none, some "text/html", "http://x/f"⟩⟩

theorem mem_insertSet (x y : Nat) (l : List Nat) :
    y ∈ insertSet x l ↔ y = x ∨ y ∈ l := by
  unfold insertSet
  by_cases h : x ∈ l
  · rw [if_pos h]
    constructor
    · intro hy
      exact Or.inr hy
    · intro hy
      cases hy with
      | inl he => rw [he]; exact h
      | inr hy => exact hy
  · rw [if_neg h, List.mem_cons]

theorem mem_removeSet (x y : Nat) (l : List Nat) :
    y ∈ removeSet x l ↔ y ∈ l ∧ y ≠ x := by
  unfold removeSet
  simp [List.mem_filter]

theorem not_mem_removeSet_self (x : Nat) (l : List Nat) :
    x ∉ removeSet x l := by
  simp [mem_removeSet]

theorem fireEvent_false (uid : Nat) (s : BotState) (r : Nat) :
    fireEvent false uid s r = (s, r) := rfl

theorem fireEvent_cancels_mono (f : Bool) (uid : Nat) (s : BotState)
    (r : Nat) (h : uid ∈ s.cancels) :
    uid ∈ (fireEvent f uid s r).1.cancels := by
  unfold fireEvent handle_callback_cancel
  cases f with
  | false => exact h
  | true =>
    simp only [if_pos rfl, if_true]
    split
    · exact (mem_insertSet uid uid s.cancels).mpr (Or.inl rfl)
    · exact (mem_insertSet uid uid s.cancels).mpr (Or.inl rfl)

theorem fireEvent_cancels_of_fire (uid : Nat) (s : BotState) (r : Nat) :
    uid ∈ (fireEvent true uid s r).1.cancels := by
  unfold fireEvent handle_callback_cancel
  simp only [if_pos rfl, if_true]
  split
  · exact (mem_insertSet uid uid s.cancels).mpr (Or.inl rfl)
  · exact (mem_insertSet uid uid s.cancels).mpr (Or.inl rfl)

theorem relInvA_fireEvent (f : Bool) (uid : Nat) (s : BotState) (r : Nat)
    (h : relInvA uid s.active r) :
    relInvA uid (fireEvent f uid s r).1.active (fireEvent f uid s r).2 := by
  unfold fireEvent handle_callback_cancel
  cases f with
  | false => exact h
  | true =>
    simp only [if_pos rfl, if_true]
    by_cases ha : uid ∈ s.active
    · rw [if_pos ha]
      refine Or.inr ⟨not_mem_removeSet_self uid s.active, ?_⟩
      cases h with
      | inl h =>
        rw [h.2]
        rfl
      | inr h => exact absurd ha h.1
    · rw [if_neg ha]
      cases h with
      | inl h => exact absurd h.1 ha
      | inr h => exact Or.inr h

theorem dlLoop_relInvA (uid : Nat) (env : RunEnv) (tsz : Option Nat) :
    ∀ (rest : List Nat) (i d : Nat) (s : BotState) (r : Nat)
      (sn : List Snapshot), relInvA uid s.active r →
      relInvA uid (dlLoop uid env tsz i rest d s r sn).state.active
        (dlLoop uid env tsz i rest d s r sn).rel := by
  intro rest
  induction rest with
  | nil =>
    intro i d s r sn h
    have hf := relInvA_fireEvent (env.cancelFires (2 * i)) uid s r h
    simp only [dlLoop]
    split
    · exact hf
    · exact hf
  | cons c rest2 ih =>
    intro i d s r sn h
    have hf := relInvA_fireEvent (env.cancelFires (2 * i)) uid s r h
    have hf2 := relInvA_fireEvent (env.cancelFires (2 * i + 1)) uid
      (fireEvent (env.cancelFires (2 * i)) uid s r).1
      (fireEvent (env.cancelFires (2 * i)) uid s r).2 hf
    simp only [dlLoop]
    split
    · exact hf
    · split
      · exact hf
      · split
        · exact hf2
        · split
          · split
            · exact hf2
            · exact ih (i + 1) (d + c) _ _ _ hf2
          · exact ih (i + 1) (d + c) _ _ _ hf2

theorem dlLoop_cancelled (uid : Nat) (env : RunEnv) (m : Nat)
    (herr : env.chunkErr = none) :
    ∀ (rest : List Nat) (i d : Nat) (s : BotState) (r : Nat)
      (sn : List Snapshot),
      (uid ∈ s.cancels ∨ ∃ t, 2 * i ≤ t ∧ t ≤ 2 * i + 2 * rest.length ∧
        env.cancelFires t = true) →
      (dlLoop uid env (some m) i rest d s r sn).exit = .cancelledL ∨
      ((dlLoop uid env (some m) i rest d s r sn).exit = .doneL ∧
        uid ∈ (dlLoop uid env (some m) i rest d s r sn).state.cancels) := by
  intro rest
  induction rest with
  | nil =>
    intro i d s r sn h
    have hne : ¬ (env.chunkErr = some i) := by
      rw [herr]
      exact fun hc => Option.noConfusion hc
    simp only [dlLoop]
    rw [if_neg hne]
    refine Or.inr ⟨rfl, ?_⟩
    cases h with
    | inl h => exact fireEvent_cancels_mono _ uid s r h
    | inr h =>
      obtain ⟨t, h1, h2, h3⟩ := h
      have h2' : t ≤ 2 * i := by simpa using h2
      have ht : (2 : Nat) * i = t := by omega
      rw [ht, h3]
      exact fireEvent_cancels_of_fire uid s r
  | cons c rest2 ih =>
    intro i d s r sn h
    have hne : ¬ (env.chunkErr = some i) := by
      rw [herr]
      exact fun hc => Option.noConfusion hc
    simp only [dlLoop]
    rw [if_neg hne]
    by_cases hc1 : uid ∈ (fireEvent (env.cancelFires (2 * i)) uid s r).1.cancels
    · rw [if_pos hc1]
      exact Or.inl rfl
    · rw [if_neg hc1]
      have hs0 : uid ∉ s.cancels :=
        fun hin => hc1 (fireEvent_cancels_mono _ uid s r hin)
      have hfire0 : env.cancelFires (2 * i) = false := by
        cases hf : env.cancelFires (2 * i) with
        | false => rfl
        | true =>
          exfalso
          apply hc1
          rw [hf]
          exact fireEvent_cancels_of_fire uid s r
      obtain ⟨t, h1, h2, h3⟩ : ∃ t, 2 * i ≤ t ∧
          t ≤ 2 * i + 2 * (c :: rest2).length ∧ env.cancelFires t = true := by
        cases h with
        | inl h => exact absurd h hs0
        | inr h => exact h
      have htne : t ≠ 2 * i := by
        intro hteq
        rw [hteq, hfire0] at h3
        exact Bool.noConfusion h3
      by_cases hc2 : uid ∈ (fireEvent (env.cancelFires (2 * i + 1)) uid
          (fireEvent (env.cancelFires (2 * i)) uid s r).1
          (fireEvent (env.cancelFires (2 * i)) uid s r).2).1.cancels
      · rw [if_pos hc2]
        exact Or.inl rfl
      · rw [if_neg hc2]
        have hfire1 : env.cancelFires (2 * i + 1) = false := by
          cases hf : env.cancelFires (2 * i + 1) with
          | false => rfl
          | true =>
            exfalso
            apply hc2
            rw [hf]
            exact fireEvent_cancels_of_fire uid _ _
        have htne1 : t ≠ 2 * i + 1 := by
          intro hteq
          rw [hteq, hfire1] at h3
          exact Bool.noConfusion h3
        have h2' : t ≤ 2 * i + 2 * rest2.length + 2 := by
          simp [List.length_cons] at h2
          omega
        have hnext : ∃ u, 2 * (i + 1) ≤ u ∧
            u ≤ 2 * (i + 1) + 2 * rest2.length ∧ env.cancelFires u = true :=
          ⟨t, by omega, by omega, h3⟩
        split
        · exact ih (i + 1) (d + c) _ _ _ (Or.inr hnext)
        · exact ih (i + 1) (d + c) _ _ _ (Or.inr hnext)

theorem dlLoop_completes (uid : Nat) (env : RunEnv) (tsz : Option Nat)
    (herr : env.chunkErr = none)
    (hfires : ∀ t, env.cancelFires t = false)
    (hsafe : tsz = none → ∀ j, env.emitTime j = false) :
    ∀ (rest : List Nat) (i d : Nat) (s : BotState) (r : Nat)
      (sn : List Snapshot), uid ∉ s.cancels →
      (dlLoop uid env tsz i rest d s r sn).exit = .doneL ∧
      (dlLoop uid env tsz i rest d s r sn).downloaded = d + rest.sum ∧
      (dlLoop uid env tsz i rest d s r sn).state = s ∧
      (dlLoop uid env tsz i rest d s r sn).rel = r := by
  intro rest
  induction rest with
  | nil =>
    intro i d s r sn hnc
    have hne : ¬ (env.chunkErr = some i) := by
      rw [herr]
      exact fun hc => Option.noConfusion hc
    simp only [dlLoop, hfires, fireEvent_false]
    rw [if_neg hne]
    exact ⟨rfl, by simp, rfl, rfl⟩
  | cons c rest2 ih =>
    intro i d s r sn hnc
    have hne : ¬ (env.chunkErr = some i) := by
      rw [herr]
      exact fun hc => Option.noConfusion hc
    simp only [dlLoop, hfires, fireEvent_false]
    rw [if_neg hne, if_neg hnc, if_neg hnc]
    cases htsz : tsz with
    | none =>
      have hemit : env.emitTime i = false := hsafe htsz i
      rw [hemit]
      simp only [pyEqNatOpt, Bool.or_self, Bool.false_eq_true, if_false]
      obtain ⟨e1, e2, e3, e4⟩ := ih (i + 1) (d + c) s r sn hnc
      rw [htsz] at e1 e2 e3 e4
      refine ⟨e1, ?_, e3, e4⟩
      rw [e2, List.sum_cons]
      omega
    | some m =>
      split
      · obtain ⟨e1, e2, e3, e4⟩ := ih (i + 1) (d + c) s r
          (sn ++ [if m > 0 then Snapshot.known (d + c) m
                  else Snapshot.unknown (d + c)]) hnc
        rw [htsz] at e1 e2 e3 e4
        refine ⟨e1, ?_, e3, e4⟩
        rw [e2, List.sum_cons]
        omega
      · obtain ⟨e1, e2, e3, e4⟩ := ih (i + 1) (d + c) s r sn hnc
        rw [htsz] at e1 e2 e3 e4
        refine ⟨e1, ?_, e3, e4⟩
        rw [e2, List.sum_cons]
        omega

theorem dwp_relInvA (uid : Nat) (env : RunEnv) (tsz : Option Nat)
    (ftype : FileType) (s : BotState) (h : uid ∈ s.active) :
    relInvA uid (download_with_progress uid env tsz ftype s).state.active
      (download_with_progress uid env tsz ftype s).rel := by
  have hl := dlLoop_relInvA uid env tsz env.chunks 0 0 s 0 []
    (Or.inl ⟨h, rfl⟩)
  simp only [download_with_progress]
  split
  · exact Or.inl ⟨h, rfl⟩
  · split
    · exact hl
    · exact hl
    · split
      · exact hl
      · split
        · exact hl
        · exact hl

theorem applyFinally_release (uid : Nat) (s : BotState) (r : Nat)
    (h : relInvA uid s.active r) :
    (applyFinally uid s r).2 = 1 ∧ uid ∉ (applyFinally uid s r).1.active := by
  simp only [applyFinally]
  cases h with
  | inl h =>
    rw [if_pos h.1]
    constructor
    · rw [h.2]
    · exact not_mem_removeSet_self uid s.active
  | inr h =>
    rw [if_neg h.1]
    exact ⟨h.2, h.1⟩

theorem handle_url_release (uid : Nat) (t : String) (env : RunEnv)
    (s : BotState) (h1 : uid ∉ s.active)
    (h2 : urlRegexMatch (pyStrip t) = true) :
    (handle_url uid t env s).rel = 1 ∧
    uid ∉ (handle_url uid t env s).state.active := by
  simp only [handle_url]
  rw [if_neg (fun hc => hc h2), if_neg h1]
  have hmem : uid ∈ insertSet uid s.active :=
    (mem_insertSet uid uid s.active).mpr (Or.inl rfl)
  split
  · exact applyFinally_release uid _ 0 (Or.inl ⟨hmem, rfl⟩)
  · split
    · exact applyFinally_release uid _ 0 (Or.inl ⟨hmem, rfl⟩)
    · exact applyFinally_release uid _ _
        (dwp_relInvA uid env _ _ ⟨insertSet uid s.active, s.cancels⟩ hmem)

theorem handle_url_admitted_of (uid : Nat) (t : String) (env : RunEnv)
    (s : BotState) (h2 : urlRegexMatch (pyStrip t) = true)
    (h1 : uid ∉ s.active) :
    (handle_url uid t env s).admitted = true := by
  simp only [handle_url]
  rw [if_neg (fun hc => hc h2), if_neg h1]
  split
  · rfl
  · split
    · rfl
    · rfl

/-- C1: while an owner has an admitted, unreleased session, a second
submission by the same owner is rejected with no state change; the
active entry of an admitted run is deleted exactly once across every
terminal path (including cancel callbacks firing mid-run, whose deletion
is guarded, as is the one in the finally block); after the run the owner
is no longer active, so a new submission by the same owner is admitted
again. -/
theorem c1_admission_release (uid : Nat) (t t2 : String) (e e2 : RunEnv)
    (s : BotState) (h1 : uid ∉ s.active)
    (h2 : urlRegexMatch (pyStrip t) = true)
    (h3 : urlRegexMatch (pyStrip t2) = true) :
    (handle_url uid t e s).rel = 1 ∧
    uid ∉ (handle_url uid t e s).state.active ∧
    (handle_url uid t2 e2 (handle_url uid t e s).state).admitted = true ∧
    ∀ s2 : BotState, uid ∈ s2.active →
      (handle_url uid t2 e2 s2).outcome = .alreadyActive ∧
      (handle_url uid t2 e2 s2).state = s2 ∧
      (handle_url uid t2 e2 s2).rel = 0 ∧
      (handle_url uid t2 e2 s2).uploads = [] := by
  have hrel := handle_url_release uid t e s h1 h2
  refine ⟨hrel.1, hrel.2,
    handle_url_admitted_of uid t2 e2 _ h3 hrel.2, ?_⟩
  intro s2 hs2
  simp only [handle_url]
  rw [if_neg (fun hc => hc h3), if_pos hs2]
  exact ⟨rfl, rfl, rfl, rfl⟩

/-- Witness for C1 at a concrete owner, URL and environment: an
admitted empty-stream run releases exactly once and leaves the owner
inactive; a rerun from the resulting state is admitted; a submission
while the owner is active is rejected with the state unchanged. -/
theorem c1_admission_release_witness :
    (handle_url 7 "http://x/a.bin" baseEnv ⟨[], []⟩).rel = 1 ∧
    7 ∉ (handle_url 7 "http://x/a.bin" baseEnv ⟨[], []⟩).state.active ∧
    (handle_url 7 "http://x/a.bin" baseEnv
      (handle_url 7 "http://x/a.bin" baseEnv ⟨[], []⟩).state).admitted
      = true ∧
    (handle_url 7 "http://x/a.bin" baseEnv ⟨[7], []⟩).outcome
      = .alreadyActive ∧
    (handle_url 7 "http://x/a.bin" baseEnv ⟨[7], []⟩).state = ⟨[7], []⟩ := by
  have h := c1_admission_release 7 "http://x/a.bin" "http://x/a.bin"
    baseEnv baseEnv ⟨[], []⟩ (by decide) (by decide) (by decide)
  have h4 := h.2.2.2 ⟨[7], []⟩ (by decide)
  exact ⟨h.1, h.2.1, h.2.2.1, h4.1, h4.2.1⟩

/-- C2: during streaming with a declared size, if an owner cancel
callback fires at any chunk-boundary slot (before or after a chunk
write, or before the final pre-upload check), the download returns
through a cancel branch: the upload phase is never entered and no send
method is invoked, so the buffer is discarded. -/
theorem c2_cancel_before_upload (uid : Nat) (env : RunEnv) (m : Nat)
    (ftype : FileType) (s : BotState) (h200 : env.status = 200)
    (herr : env.chunkErr = none)
    (hfire : ∃ t, t ≤ 2 * env.chunks.length ∧ env.cancelFires t = true) :
    (download_with_progress uid env (some m) ftype s).exit = .cancelledRet ∧
    (download_with_progress uid env (some m) ftype s).enteredUpload = false ∧
    (download_with_progress uid env (some m) ftype s).uploads = [] := by
  simp only [download_with_progress]
  rw [if_neg (fun hc => hc h200)]
  obtain ⟨t, ht1, ht2⟩ := hfire
  have hc := dlLoop_cancelled uid env m herr env.chunks 0 0 s 0 []
    (Or.inr ⟨t, Nat.zero_le t, by simpa using ht1, ht2⟩)
  cases hc with
  | inl hcc =>
    rw [hcc]
    exact ⟨rfl, rfl, rfl⟩
  | inr hdm =>
    rw [hdm.1, if_pos hdm.2]
    exact ⟨rfl, rfl, rfl⟩

/-- Witness for C2, the scenario of the spec: two chunks of 8192 bytes,
an owner cancel callback firing between them, declared size 16384; the
result is the cancel branch with bytes_transferred 8192, the upload
phase not entered, and no send method invoked. -/
theorem c2_cancel_before_upload_witness :
    (download_with_progress 9 envC2 (some 16384) .document
      ⟨[9], []⟩).exit = .cancelledRet ∧
    (download_with_progress 9 envC2 (some 16384) .document
      ⟨[9], []⟩).enteredUpload = false ∧
    (download_with_progress 9 envC2 (some 16384) .document
      ⟨[9], []⟩).uploads = [] ∧
    (download_with_progress 9 envC2 (some 16384) .document
      ⟨[9], []⟩).downloaded = 8192 := by
  have h := c2_cancel_before_upload 9 envC2 16384 .document ⟨[9], []⟩
    rfl rfl ⟨2, by decide, rfl⟩
  exact ⟨h.1, h.2.1, h.2.2, by decide⟩

/-- C3: given a successful probe, an admitted run starts streaming if
and only if the declared size is unknown or at most MAX_FILE_SIZE; a
declared size strictly above the limit ends the run as size-rejected
with zero bytes fetched and the stream never opened. -/
theorem c3_size_gate (uid : Nat) (t : String) (env : RunEnv)
    (s : BotState) (info : ProbeInfo)
    (h2 : urlRegexMatch (pyStrip t) = true) (h1 : uid ∉ s.active)
    (hp : check_url_info env.probeEnv = some info) :
    ((handle_url uid t env s).streamStarted = true ↔
      info.size = none ∨ ∃ n, info.size = some n ∧ n ≤ MAX_FILE_SIZE) ∧
    ((∃ n, info.size = some n ∧ MAX_FILE_SIZE < n) →
      (handle_url uid t env s).outcome = .sizeRejected ∧
      (handle_url uid t env s).downloaded = 0 ∧
      (handle_url uid t env s).streamStarted = false) := by
  have hM : 0 < MAX_FILE_SIZE := by decide
  simp only [handle_url, hp]
  rw [if_neg (fun hc => hc h2), if_neg h1]
  cases hsz : info.size with
  | none =>
    have hcond : pySizeTooBig none = false := rfl
    rw [hcond]
    constructor
    · simp
    · rintro ⟨n, hn, -⟩
      exact Option.noConfusion hn
  | some n =>
    by_cases hbig : MAX_FILE_SIZE < n
    · have hcond : pySizeTooBig (some n) = true := by
        simp only [pySizeTooBig, Bool.and_eq_true, bne_iff_ne,
          decide_eq_true_eq]
        omega
      rw [hcond]
      constructor
      · simp only [if_true]
        constructor
        · intro hfalse
          exact Bool.noConfusion hfalse
        · rintro (hn | ⟨k, hk, hle⟩)
          · exact Option.noConfusion hn
          · cases Option.some.inj hk
            omega
      · intro _
        exact ⟨rfl, rfl, rfl⟩
    · have hcond : pySizeTooBig (some n) = false := by
        simp only [pySizeTooBig]
        simp only [Bool.and_eq_false_iff, bne_eq_false_iff_eq,
          decide_eq_false_iff_not]
        omega
      rw [hcond]
      constructor
      · rw [if_neg (fun hc => Bool.noConfusion hc)]
        constructor
        · intro _
          exact Or.inr ⟨n, rfl, by omega⟩
        · intro _
          rfl
      · rintro ⟨k, hk, hlt⟩
        cases Option.some.inj hk
        omega

/-- Witness for C3, the scenario of the spec: a probe declaring
3221225472 bytes (3 GiB) makes the run end size-rejected, with zero
bytes fetched and the stream never opened. -/
theorem c3_size_gate_witness :
    (handle_url 5 "http://x/v.mp4" env3 ⟨[], []⟩).outcome = .sizeRejected ∧
    (handle_url 5 "http://x/v.mp4" env3 ⟨[], []⟩).downloaded = 0 ∧
    (handle_url 5 "http://x/v.mp4" env3 ⟨[], []⟩).streamStarted = false :=
  (c3_size_gate 5 "http://x/v.mp4" env3 ⟨[], []⟩
    ⟨some 3221225472, "video/mp4", "http://x/v.mp4"⟩ (by decide) (by decide)
    (by decide)).2 ⟨3221225472, rfl, by decide⟩

theorem pyChunksFuel_sum (C : Nat) (hC : 0 < C) :
    ∀ fuel N, N ≤ fuel → (pyChunksFuel C fuel N).sum = N := by
  intro fuel
  induction fuel with
  | zero =>
    intro N hN
    have hN0 : N = 0 := by omega
    rw [hN0]
    rfl
  | succ f ih =>
    intro N hN
    cases N with
    | zero => rfl
    | succ n =>
      simp only [pyChunksFuel]
      split
      · simp
      · rename_i hgt
        rw [List.sum_cons, ih (n + 1 - C) (by omega)]
        omega

theorem pyChunks_sum (C N : Nat) (hC : 0 < C) : (pyChunks C N).sum = N := by
  unfold pyChunks
  rw [if_neg (by omega)]
  exact pyChunksFuel_sum C hC N N (Nat.le_refl N)

/-- C4: a body of N bytes delivered as the chunking of N at any positive
chunk size C, streamed without cancellation (and without the unknown
size progress fault, which claim C8 records separately), leaves the
downloaded byte counter at exactly N, whether or not C divides N. -/
theorem c4_exact_byte_count (uid : Nat) (env : RunEnv) (tsz : Option Nat)
    (ftype : FileType) (s : BotState) (N C : Nat) (hC : 0 < C)
    (hchunks : env.chunks = pyChunks C N) (h200 : env.status = 200)
    (herr : env.chunkErr = none)
    (hfires : ∀ t, env.cancelFires t = false)
    (hsafe : tsz = none → ∀ j, env.emitTime j = false)
    (hnc : uid ∉ s.cancels) :
    (download_with_progress uid env tsz ftype s).downloaded = N := by
  simp only [download_with_progress]
  rw [if_neg (fun hc => hc h200)]
  obtain ⟨e1, e2, e3, e4⟩ :=
    dlLoop_completes uid env tsz herr hfires hsafe env.chunks 0 0 s 0 [] hnc
  have hsum : (dlLoop uid env tsz 0 env.chunks 0 s 0 []).downloaded = N := by
    rw [e2, hchunks, pyChunks_sum C N hC]
    omega
  have hncs : uid ∉ (dlLoop uid env tsz 0 env.chunks 0 s 0 []).state.cancels := by
    rw [e3]
    exact hnc
  simp only [e1]
  rw [if_neg hncs]
  cases hup : uploadPhase ftype (dlLoop uid env tsz 0 env.chunks 0 s 0 []).downloaded with
  | error e =>
    simp only [hup]
    exact hsum
  | ok tr =>
    simp only [hup]
    exact hsum

/-- Witness for C4: a 5-byte body chunked at size 2 (chunks 2, 2, 1)
ends with the counter at exactly 5. -/
theorem c4_exact_byte_count_witness :
    (download_with_progress 4 env4 (some 5) .document ⟨[], []⟩).downloaded
      = 5 :=
  c4_exact_byte_count 4 env4 (some 5) .document ⟨[], []⟩ 5 2 (by decide)
    rfl rfl rfl (fun _ => rfl) (fun h => Option.noConfusion h) (by decide)

/-- C5 (code bug): with no declared size and a zero-length 200 body, the
run classifies the file as document and reaches the upload phase with
bytes_transferred 0, but there it raises NameError (utils.py line 186
evaluates `datetime.now()` and `datetime` is never imported), so the
terminal outcome is the Upload failed message, not Completed, and no
send method is invoked. -/
theorem c5_zero_body_fails_with_nameerror :
    (handle_url 3 "http://x/f.bin" baseEnv ⟨[], []⟩).outcome
      = .uploadError (.nameError "datetime") ∧
    (handle_url 3 "http://x/f.bin" baseEnv ⟨[], []⟩).downloaded = 0 ∧
    (handle_url 3 "http://x/f.bin" baseEnv ⟨[], []⟩).enteredUpload = true ∧
    (handle_url 3 "http://x/f.bin" baseEnv ⟨[], []⟩).uploads = [] ∧
    (handle_url 3 "http://x/f.bin" baseEnv ⟨[], []⟩).rel = 1 ∧
    get_file_type (extract_filename_from_url baseEnv.unquote baseEnv.parse
      baseEnv.now) "" = .document := by
  decide

/-- C6 amended: the embedded check_url_info returns None exactly when an
exception occurs (a transport error on the HEAD request, a transport
error on the ranged GET fallback after a non-200 HEAD, or a malformed
non-empty content-length); a non-success status on both attempts alone
does not produce failure. -/
theorem c6_probe_failure_iff (env : ProbeEnv) :
    check_url_info env = none ↔ probeFailCond env := by
  unfold check_url_info probeFailCond
  cases ho : operativeResp env with
  | error e =>
    constructor
    · intro _
      exact Or.inl ⟨e, rfl⟩
    · intro _
      rfl
  | ok r =>
    simp only [Except.bind]
    cases hb : buildInfo r with
    | ok info =>
      simp only [hb]
      constructor
      · intro h
        exact absurd h (by simp)
      · rintro (⟨e, he⟩ | ⟨r2, cs, hr2, hcl, hemp, hn⟩)
        · exact Except.noConfusion he
        · cases Except.ok.inj hr2
          simp [buildInfo, hcl, hemp, pyInt, hn, Except.map] at hb
    | error e2 =>
      simp only [hb]
      constructor
      · intro _
        cases hcl : r.contentLength with
        | none => simp [buildInfo, hcl] at hb
        | some cs =>
          by_cases hemp : cs = ""
          · simp [buildInfo, hcl, hemp] at hb
          · cases hn : pyToNat cs with
            | some k =>
              simp [buildInfo, hcl, hemp, pyInt, hn, Except.map] at hb
            | none => exact Or.inr ⟨r, cs, rfl, hcl, hemp, hn⟩
      · intro _
        trivial

/-- C6 counterexample: both the HEAD and the ranged GET answer 404, yet
check_url_info returns a ProbeResult built from the 404 response rather
than failure. -/
theorem c6_counterexample :
    probe404.head = .ok ⟨404, none, some "text/html", "http://x/f"⟩ ∧
    probe404.getRange = .ok ⟨404, none, some "text/html", "http://x/f"⟩ ∧
    check_url_info probe404 = some ⟨none, "text/html", "http://x/f"⟩ ∧
    check_url_info probe404 ≠ none := by
  refine ⟨rfl, rfl, by decide, by decide⟩

/-- C7: a cancel request whose requester differs from the session owner
is denied with the alert-only reply; the registry entry, the cancel
flags and the deletion count are untouched. -/
theorem c7_unauthorized_cancel_denied (req target : Nat) (s : BotState)
    (h : req ≠ target) :
    handle_callback_cancel req target s = (s, .deniedNotOwner, 0) := by
  unfold handle_callback_cancel
  rw [if_neg h]

/-- Witness for C7: requester 1 cannot cancel the session of owner 2;
the state with owner 2 active is returned unchanged. -/
theorem c7_unauthorized_cancel_denied_witness :
    handle_callback_cancel 1 2 ⟨[2], []⟩ = (⟨[2], []⟩, .deniedNotOwner, 0) :=
  c7_unauthorized_cancel_denied 1 2 ⟨[2], []⟩ (by decide)

/-- C8 (code bug): with no declared size, the first triggered progress
emission evaluates `total_size > 0` with total_size None (utils.py line
113 keeps the None stored under the size key, line 144 compares it) and
raises TypeError: no unknown-total snapshot is ever emitted and the
transfer aborts, surfacing as the Upload failed outcome. -/
theorem c8_unknown_size_progress_typeerror :
    (download_with_progress 4 envC8 none .document ⟨[4], []⟩).exit
      = .raised .typeError ∧
    (download_with_progress 4 envC8 none .document ⟨[4], []⟩).snaps = [] ∧
    (download_with_progress 4 envC8 none .document ⟨[4], []⟩).enteredUpload
      = false ∧
    (handle_url 4 "http://x/f.bin" envC8 ⟨[], []⟩).outcome
      = .uploadError .typeError := by
  decide

/-- C10 (code bug): the transport chooser of utils.py lines 188 to 215
does route an oversized photo to send_document and media by category,
but the upload phase raises NameError at the caption line before ever
reaching it, so no transport is invoked for any buffer. -/
theorem c10_photo_routing_dead :
    uploadPhase .photo 11534336 = .error (.nameError "datetime") ∧
    uploadPhase .photo 1024 = .error (.nameError "datetime") ∧
    selectTransport .photo 11534336 = .document ∧
    selectTransport .photo MAX_PHOTO_SIZE = .photo ∧
    selectTransport .video 11534336 = .video ∧
    selectTransport .audio 11534336 = .audio := by
  decide

theorem fallback_ne_empty (n : Nat) : "file_" ++ toString n ≠ "" := by
  intro h
  have hl := congrArg String.length h
  rw [String.length_append] at hl
  have h5 : ("file_" : String).length = 5 := rfl
  rw [h5] at hl
  have h0 : ("" : String).length = 0 := rfl
  rw [h0] at hl
  omega

theorem strContains_dot_ne_empty (s : String)
    (h : strContains s "." = true) : s ≠ "" := by
  intro he
  subst he
  exact absurd h (by decide)

theorem extract_body_ok (unq : String → String) (p : UrlParts) (now : Nat)
    (fn : String) (h : extract_body unq p now = .ok fn) :
    fn = "file_" ++ toString now ∨
      (fn ≠ "" ∧ strContains fn "." = true) := by
  simp only [extract_body] at h
  split at h
  · exact Except.noConfusion h
  · cases Except.ok.inj h
    split
    · exact Or.inl rfl
    · rename_i hg
      push_neg at hg
      exact Or.inr ⟨hg.1, hg.2⟩

/-- C9: resolve_filename is total and never empty: for every unquote
behaviour, every urlparse outcome (including a parse exception) and
every clock value, the embedded extract_filename_from_url returns either
the synthesized `file_<unix_timestamp>` fallback or a name containing a
dot; in both cases the result is non-empty and no exception escapes. -/
theorem c9_resolve_filename_total (unq : String → String)
    (parse : Except PyErr UrlParts) (now : Nat) :
    extract_filename_from_url unq parse now ≠ "" ∧
    (extract_filename_from_url unq parse now = "file_" ++ toString now ∨
      strContains (extract_filename_from_url unq parse now) "." = true) := by
  unfold extract_filename_from_url
  cases hp : parse with
  | error e => exact ⟨fallback_ne_empty now, Or.inl rfl⟩
  | ok p =>
    simp only [Except.bind]
    cases hb : extract_body unq p now with
    | error e => exact ⟨fallback_ne_empty now, Or.inl rfl⟩
    | ok fn =>
      cases extract_body_ok unq p now fn hb with
      | inl hf => exact ⟨by rw [hf]; exact fallback_ne_empty now, Or.inl hf⟩
      | inr hf => exact ⟨hf.1, Or.inr hf.2⟩
